import Mathlib

/-!
Shallow embedding of the Scriptable Travel Widget core
(src/lib/DestinationTravelTime.js and src/Travel Widget.js).

JavaScript numbers that may become NaN (through arithmetic on an undefined
field) are modelled as Option Int (none = NaN/undefined); JavaScript Date
values are modelled by JSDate, distinguishing an absent (undefined, falsy)
value, an invalid Date (truthy, with NaN time) and a valid timestamp in
milliseconds since the epoch.  External I/O (calendar fetch, HTTP request,
keychain, notification store) is out of scope: each embedded function takes
the data those calls would produce as explicit arguments, and the planner
records which collaborators it would have called in a trace structure.
-/

namespace TravelWidget

/-- A JavaScript number that may be NaN or undefined (none).  JS arithmetic
propagates NaN, and every comparison against NaN is false; the helpers
below mirror that. -/
abbrev JSNum := Option Int

/-- JS addition; NaN/undefined operands give NaN. -/
def jsAdd (a b : JSNum) : JSNum :=
  match a, b with
  | some x, some y => some (x + y)
  | _, _ => none

/-- JS subtraction; NaN/undefined operands give NaN. -/
def jsSub (a b : JSNum) : JSNum :=
  match a, b with
  | some x, some y => some (x - y)
  | _, _ => none

/-- JS multiplication; NaN/undefined operands give NaN. -/
def jsMul (a b : JSNum) : JSNum :=
  match a, b with
  | some x, some y => some (x * y)
  | _, _ => none

/-- JS strict less-than on numbers: any comparison involving NaN is false. -/
def jsLtN (a b : JSNum) : Bool :=
  match a, b with
  | some x, some y => x < y
  | _, _ => false

/-- JS strict greater-than on numbers: any comparison involving NaN is false. -/
def jsGtN (a b : JSNum) : Bool :=
  match a, b with
  | some x, some y => y < x
  | _, _ => false

/-- A Date-valued field of a JS object: absent (undefined, the only falsy
case), an invalid Date (time is NaN, but the object is truthy), or a valid
timestamp in milliseconds since the UNIX epoch. -/
inductive JSDate where
  | absent
  | invalid
  | valid (t : Int)
deriving Repr, DecidableEq

/-- JS truthiness of a Date-valued field: only undefined is falsy (an
invalid Date object is still truthy). -/
def JSDate.truthy : JSDate → Bool
  | .absent => false
  | _ => true

/-- Date.prototype.getTime: NaN for an invalid Date.  The absent case never
arises at the embedded call sites (JS would throw there). -/
def JSDate.getTime : JSDate → JSNum
  | .valid t => some t
  | _ => none

/-- JS truthiness of a string-or-undefined field: truthy iff the field is
present and the string is non-empty. -/
def strTruthy : Option String → Bool
  | some s => s ≠ ""
  | none => false

/-- A calendar event as read from the calendar source (the fields title,
location and startDate of the source, the latter in ms since the epoch). -/
structure Event where
  title : String
  location : Option String
  startTime : Int
deriving Repr, DecidableEq

/-- The nextEvent object built by getNextEvent: either the sentinel (title
"none", location null, time = end of the day) or the data of the selected
event with a normalized location. -/
structure NextEvent where
  title : String
  location : Option String
  time : Int
deriving Repr, DecidableEq

/-- A possibleRoute object.  The success variant has name = the route
summary and a travelTime; the error variant produced by getPossibleRoutes
has name = "Maps API error", no travelTime, and carries the status and
error_message of the provider response (either of which may itself be
missing) in its status/error fields. -/
structure Route where
  name : String
  travelTime : Option Int
  status : Option String
  error : Option String
deriving Repr, DecidableEq

/-- A known place from the configuration file: an object with a
location_names list and a preferred_routes list. -/
structure KnownPlace where
  location_names : List String
  preferred_routes : List String
deriving Repr, DecidableEq

/-- The parsed configuration file (an object with a known_places list). -/
structure Config where
  known_places : List KnownPlace
deriving Repr, DecidableEq

/-- One route of the Google Directions JSON payload, flattened to the two
fields the source reads: route.summary and the seconds value of
duration_in_traffic on the first leg.  Success payloads are assumed
well-formed (non-empty legs, as the source also assumes). -/
structure RawRoute where
  summary : String
  durationInTraffic : Int
deriving Repr, DecidableEq

/-- The Google Directions response as far as the source reads it: status
and error_message may each be missing, plus the route list. -/
structure MapsResponse where
  status : Option String
  error_message : Option String
  routes : List RawRoute
deriving Repr, DecidableEq

/-- The routeInfo object returned by getTravelTime.  In the two
short-circuit returns the arrival keys are not present in the object
literal, which JSDate.absent models. -/
structure RouteInfo where
  routeName : String
  routeTimeSeconds : JSNum
  destinationName : String
  arrivalTargetTime : JSDate
  arrivalTime : JSDate
deriving Repr, DecidableEq

/-- Result of one planning cycle: the returned routeInfo plus a trace of
which external collaborators were invoked, and the value of the
chosenRoute variable when the success path was reached. -/
structure PlanTrace where
  routeInfo : RouteInfo
  calledLocation : Bool
  calledMaps : Bool
  chosenRoute : Option Route
deriving Repr, DecidableEq

/-- Location normalization from getNextEvent: three replaceAll calls that
turn blanks and newlines into "+", delete commas, and turn en-dashes into
hyphens.  All three regexes are single-character classes, so the
composition acts independently on each character. -/
def normalizeLocation (s : String) : String :=
  String.mk (s.data.filterMap fun c =>
    if c = ' ' ∨ c = '\n' then some '+'
    else if c = ',' then none
    else if c = '–' then some '-'
    else some c)

/-- The null-safe length test on the location field: true iff the location
is present and non-empty (in JS, undefined compared with 0 is false). -/
def locationOk : Option String → Bool
  | some s => s.length > 0
  | none => false

/-- The nextEvent record built when an event passes the filter in
getNextEvent. -/
def mkNextEvent (ev : Event) : NextEvent :=
  { title := ev.title
    location := ev.location.map normalizeLocation
    time := ev.startTime }

/-- The sentinel nextEvent initializer: title "none", location null, time =
endOfTheDay. -/
def sentinelNextEvent (endOfTheDay : Int) : NextEvent :=
  { title := "none", location := none, time := endOfTheDay }

/-- One iteration of the loop in getNextEvent: replace the current best
when the event starts in the future, starts before the current best, is at
most 120 minutes away, and has a non-empty location. -/
def nextEventStep (now : Int) (nextEvent : NextEvent) (ev : Event) : NextEvent :=
  if now < ev.startTime ∧ ev.startTime < nextEvent.time ∧
      ev.startTime - now ≤ 7200000 ∧ locationOk ev.location
  then mkNextEvent ev
  else nextEvent

/-- getNextEvent from DestinationTravelTime.js (lines 76-142).  The
calendar fetch is external, so the list of calendar events of the day is
passed in; endOfTheDay is the upcoming local midnight the source computes
from the wall clock (its exact value depends on the local timezone, so it
is passed explicitly; every run of the source satisfies
now < endOfTheDay ≤ now + 86400000 up to DST shifts).  The millisecond
test of the source, (startDate - now)/60/1000 <= 120, is equivalent to
startDate - now ≤ 7200000 for integer millisecond differences: the two
float divisions are monotone and exact at the boundary. -/
def getNextEvent (events : List Event) (now endOfTheDay : Int) : NextEvent :=
  events.foldl (nextEventStep now) (sentinelNextEvent endOfTheDay)

/-- The includes test on location_names where the destination may be
undefined (the chooser is called with only two arguments from
getTravelTime): Array.includes compares with SameValueZero, and no
JSON-parsed string equals undefined, so a missing destination matches
nothing. -/
def includesOpt (names : List String) (destination : Option String) : Bool :=
  match destination with
  | some d => names.contains d
  | none => false

/-- getChosenRoute from DestinationTravelTime.js (lines 292-332).  Returns
none exactly when the source would return undefined (first element of an
empty array, with no preferred match). -/
def getChosenRoute (possibleRoutes : List Route) (knownPlaces : List KnownPlace)
    (destination : Option String) : Option Route :=
  let knownPlace := knownPlaces.find? fun place =>
    includesOpt place.location_names destination
  let chosenRoute : Option Route :=
    match knownPlace with
    | some kp => possibleRoutes.find? fun route =>
        kp.preferred_routes.contains route.name
    | none => none
  match chosenRoute with
  | some r => some r
  | none => possibleRoutes.head?

/-- The success-path mapping of getPossibleRoutes: an object with name =
route.summary and travelTime = the duration-in-traffic seconds. -/
def toRoute (r : RawRoute) : Route :=
  { name := r.summary, travelTime := some r.durationInTraffic
    status := none, error := none }

/-- The sort comparator of getPossibleRoutes as a boolean may-come-before
relation: the JS comparator returns positive exactly when the first travel
time is below the second, i.e. it sorts by travel time descending.  On the
success path every element has a travelTime, so the getD default is never
exercised; it merely extends the relation totally and transitively to all
of Route. -/
def routeDescLe (r1 r2 : Route) : Bool :=
  r2.travelTime.getD 0 ≤ r1.travelTime.getD 0

/-- Insert into a list sorted by routeDescLe, before the first element the
inserted route may precede.  With ties kept in encounter order this
reproduces the output of the stable Array.prototype.sort of JS (stable
sorting by a total preorder has a unique result). -/
def insertRoute (r : Route) : List Route → List Route
  | [] => [r]
  | x :: xs => if routeDescLe r x then r :: x :: xs else x :: insertRoute r xs

/-- Stable sort by descending travel time, modelling the sort call of
getPossibleRoutes. -/
def sortRoutesDesc : List Route → List Route
  | [] => []
  | x :: xs => insertRoute x (sortRoutesDesc xs)

/-- getPossibleRoutes from DestinationTravelTime.js (lines 213-282), as a
function of the provider JSON response (the HTTP request itself is
external I/O).  The status test of the source is status !== "OK" on an
optional chain, which holds in particular when the status field is
missing. -/
def getPossibleRoutes (mapsResult : MapsResponse) : List Route :=
  if mapsResult.status ≠ some ("OK") then
    [{ name := "Maps API error", travelTime := none
       status := mapsResult.status, error := mapsResult.error_message }]
  else
    sortRoutesDesc (mapsResult.routes.map toRoute)

/-- Math.ceil of v times 0.2 for an integer v, i.e. the ceiling of v / 5.
The IEEE double product errs from the exact v / 5 by v divided by five
times 2 to the 54, which is below half an ulp of v / 5, so the correctly
rounded product never crosses an integer boundary and Math.ceil agrees
with the exact ceiling for every travel time representable here. -/
def ceilFifth (v : Int) : Int :=
  -((-v) / 5)

/-- The pessimism buffer of getTravelTime (lines 416-420): add to the
travel time the maximum of its fifth (rounded up) and 600 seconds, with
NaN propagating when travelTime was undefined. -/
def pessimize (t : JSNum) : JSNum :=
  match t with
  | some v => some (v + max (ceilFifth v) 600)
  | none => none

/-- The routeInfo literal returned when no event qualifies. -/
def noEventInfo : RouteInfo :=
  { routeName := "none", routeTimeSeconds := some 0
    destinationName := "No where to go..."
    arrivalTargetTime := .absent, arrivalTime := .absent }

/-- The planning outcome when no event qualifies: the location provider
and the Directions API are never consulted. -/
def noEventTrace : PlanTrace :=
  { routeInfo := noEventInfo
    calledLocation := false, calledMaps := false, chosenRoute := none }

/-- The routeInfo literal returned on the Maps-error branch. -/
def mapsErrorInfo : RouteInfo :=
  { routeName := "none", routeTimeSeconds := some 0
    destinationName := "Maps API error"
    arrivalTargetTime := .absent, arrivalTime := .absent }

/-- The planning outcome on the Maps-error branch (location and Directions
were already consulted by then). -/
def mapsErrorTrace : PlanTrace :=
  { routeInfo := mapsErrorInfo
    calledLocation := true, calledMaps := true, chosenRoute := none }

/-- getTravelTime from DestinationTravelTime.js (lines 349-444).  Inputs
stand for the data the external collaborators would deliver: the calendar
events of the day, the wall clock (now, in ms) and the upcoming local
midnight, the Directions response, and the parsed configuration.  An
Except.error marks the inputs on which the source throws a TypeError
(property access on undefined).  The config fetch is started
unconditionally; calledLocation and calledMaps record whether the location
provider and the Directions API were consulted. -/
def getTravelTime (bePessimistic : Bool) (events : List Event)
    (now endOfTheDay : Int) (mapsResult : MapsResponse) (config : Config) :
    Except String PlanTrace :=
  let nextEvent := getNextEvent events now endOfTheDay
  if nextEvent.title = "none" then
    .ok noEventTrace
  else
    let possibleRoutes := getPossibleRoutes mapsResult
    match possibleRoutes with
    | [] => .error ("TypeError: the first possible route is undefined")
    | firstRoute :: _ =>
      if strTruthy firstRoute.error then
        .ok mapsErrorTrace
      else
        match getChosenRoute possibleRoutes config.known_places none with
        | none => .error ("TypeError: chosenRoute is undefined")
        | some chosen =>
          let finalTravelTime :=
            if bePessimistic then pessimize chosen.travelTime
            else chosen.travelTime
          let arrivalTime : JSDate :=
            match jsAdd (jsMul finalTravelTime (some 1000)) (some now) with
            | some t => .valid t
            | none => .invalid
          .ok
            { routeInfo :=
                { routeName := chosen.name
                  routeTimeSeconds := finalTravelTime
                  destinationName := nextEvent.title
                  arrivalTargetTime := .valid nextEvent.time
                  arrivalTime := arrivalTime }
              calledLocation := true, calledMaps := true
              chosenRoute := some chosen }

/-- A pending notification as seen through the pending-notification query
of the notification store. -/
structure PendingNotification where
  title : String
  body : String
  triggerTime : JSNum
deriving Repr, DecidableEq

/-- Update the first list element satisfying p (the source updates only
the notification returned by Array.find). -/
def updateFirst (p : α → Bool) (f : α → α) : List α → List α
  | [] => []
  | x :: xs => if p x then f x :: xs else x :: updateFirst p f xs

/-- addUpdateNotification from Travel Widget.js (lines 46-102), as a
transformer of the pending-notification store.  The trigger argument is
the millisecond epoch value the callers pass (despite the Seconds suffix
in the parameter name of the source), possibly NaN.  The returned flag
records whether the store was written (the schedule call is reached on
either sub-branch); the gate compares the trigger against now plus 30
seconds, and is false for NaN. -/
def addUpdateNotification (title message : String) (triggerTimeMs : JSNum)
    (now : Int) (pending : List PendingNotification) :
    List PendingNotification × Bool :=
  if jsGtN triggerTimeMs (some (now + 30 * 1000)) then
    match pending.find? (fun notif => notif.title = title) with
    | some _ =>
        (updateFirst (fun notif => notif.title = title)
          (fun notif => { notif with body := message, triggerTime := triggerTimeMs })
          pending, true)
    | none =>
        (pending ++ [{ title := title, body := message, triggerTime := triggerTimeMs }],
          true)
  else (pending, false)

/-- The reminder block of Travel Widget.js (lines 132-159): the list of
(title, message, triggerTime) arguments of the addUpdateNotification calls
made for a given routeInfo.  Guarded by the truthiness of
arrivalTargetTime; the second call additionally requires the leave-now
trigger to be above now minus 10 minutes (false for an invalid Date). -/
def reminderCalls (info : RouteInfo) (now : Int) :
    List (String × String × JSNum) :=
  if info.arrivalTargetTime.truthy then
    let triggerTime :=
      jsSub info.arrivalTargetTime.getTime (jsMul info.routeTimeSeconds (some 1000))
    let leaveNow := ("Leave Now", "Leave NOW to " ++ info.destinationName, triggerTime)
    if jsGtN triggerTime (some (now - 10 * 60 * 1000)) then
      [leaveNow,
        ("Get Ready To Leave", "Get ready to leave to " ++ info.destinationName,
          jsSub triggerTime (some (10 * 60 * 1000)))]
    else [leaveNow]
  else []

/-- The refresh-time block of Travel Widget.js (lines 196-217): the
refresh date starts as the current date, is overwritten with
arrivalTargetTime minus twice the route time when both arrivalTime and
arrivalTargetTime are truthy, and is floored to now plus 5 minutes when
its time is below that bound (a NaN time fails the comparison and is
kept). -/
def refreshTime (info : RouteInfo) (now : Int) : JSDate :=
  let rt : JSDate :=
    if info.arrivalTime.truthy && info.arrivalTargetTime.truthy then
      match jsSub info.arrivalTargetTime.getTime
          (jsMul (jsMul info.routeTimeSeconds (some 2)) (some 1000)) with
      | some t => .valid t
      | none => .invalid
    else .valid now
  if jsLtN rt.getTime (some (now + 5 * 60 * 1000)) then .valid (now + 5 * 60 * 1000)
  else rt

/-- The part of the eligibility filter of getNextEvent that does not refer
to the running best: a future start, at most 120 minutes away, with a
non-empty location. -/
def staticElig (now : Int) (ev : Event) : Prop :=
  now < ev.startTime ∧ ev.startTime - now ≤ 7200000 ∧ locationOk ev.location = true

instance (now : Int) (ev : Event) : Decidable (staticElig now ev) := by
  unfold staticElig; infer_instance

/-- Full eligibility of an event in getNextEvent: the static filter plus a
start before the end-of-day bound that initializes the running best. -/
def eligibleEvent (now endOfTheDay : Int) (ev : Event) : Prop :=
  staticElig now ev ∧ ev.startTime < endOfTheDay

instance (now endOfTheDay : Int) (ev : Event) :
    Decidable (eligibleEvent now endOfTheDay ev) := by
  unfold eligibleEvent; infer_instance

/-! Helper lemmas about the list combinators used by the embedding. -/

theorem find?_eq_some_split {α : Type _} {p : α → Bool} {l : List α} {b : α}
    (h : l.find? p = some b) :
    ∃ pre post, l = pre ++ b :: post ∧ (∀ x ∈ pre, p x = false) ∧ p b = true := by
  induction l with
  | nil => simp [List.find?] at h
  | cons x xs ih =>
    by_cases hx : p x
    · rw [List.find?_cons_of_pos _ hx] at h
      obtain rfl : x = b := by injection h
      exact ⟨[], xs, rfl, by simp, hx⟩
    · rw [List.find?_cons_of_neg _ hx] at h
      obtain ⟨pre, post, hsplit, hpre, hb⟩ := ih h
      refine ⟨x :: pre, post, by simp [hsplit], ?_, hb⟩
      intro y hy
      rcases List.mem_cons.mp hy with rfl | hy
      · exact Bool.eq_false_iff.mpr hx
      · exact hpre y hy

/-- C1: if the first known place whose location_names contains the
destination token exists and some candidate name lies in its
preferred_routes, getChosenRoute returns the first candidate (in list
order) whose name lies in that preference list, irrespective of every
travel time (the choice never reads them); otherwise — no known place
matches the token, or no candidate name is in the preference list of the
matched place — it returns the first candidate of the list. -/
theorem getChosenRoute_preference_override (cands : List Route)
    (kps : List KnownPlace) (dest : String) :
    (∀ kp, kps.find? (fun p => includesOpt p.location_names (some dest)) = some kp →
      ∀ c ∈ cands, kp.preferred_routes.contains c.name = true →
        ∃ pre c' post, cands = pre ++ c' :: post ∧
          (∀ x ∈ pre, kp.preferred_routes.contains x.name = false) ∧
          kp.preferred_routes.contains c'.name = true ∧
          getChosenRoute cands kps (some dest) = some c') ∧
    ((∀ p ∈ kps, includesOpt p.location_names (some dest) = false) →
      getChosenRoute cands kps (some dest) = cands.head?) ∧
    (∀ kp, kps.find? (fun p => includesOpt p.location_names (some dest)) = some kp →
      (∀ c ∈ cands, kp.preferred_routes.contains c.name = false) →
      getChosenRoute cands kps (some dest) = cands.head?) := by
  refine ⟨?_, ?_, ?_⟩
  · intro kp hkp c hc hcn
    have hsome : (cands.find? fun r => kp.preferred_routes.contains r.name).isSome := by
      rw [List.find?_isSome]
      exact ⟨c, hc, hcn⟩
    obtain ⟨c', hc'⟩ := Option.isSome_iff_exists.mp hsome
    obtain ⟨pre, post, hsplit, hpre, hc'p⟩ := find?_eq_some_split hc'
    exact ⟨pre, c', post, hsplit, hpre, hc'p, by simp only [getChosenRoute, hkp, hc']⟩
  · intro hall
    have hnone : kps.find? (fun p => includesOpt p.location_names (some dest)) = none :=
      List.find?_eq_none.mpr fun p hp => by
        simp only [hall p hp]
        exact Bool.false_ne_true
    simp only [getChosenRoute, hnone]
  · intro kp hkp hnone
    have h2 : (cands.find? fun r => kp.preferred_routes.contains r.name) = none :=
      List.find?_eq_none.mpr fun c hc => by
        simp only [hnone c hc]
        exact Bool.false_ne_true
    simp only [getChosenRoute, hkp, h2]

/-- Witness for C1 at concrete inputs: destination "D" matches the single
known place, whose preference list holds the name of the second, cheaper
candidate, and that candidate is chosen over the longer first one. -/
theorem getChosenRoute_preference_override_witness :
    getChosenRoute
      [{ name := "A", travelTime := some 300, status := none, error := none },
        { name := "B", travelTime := some 100, status := none, error := none }]
      [KnownPlace.mk ["D"] ["B"]] (some ("D")) =
      some { name := "B", travelTime := some 100, status := none, error := none } := by
  obtain ⟨pre, c', post, hsplit, hpre, hcp, heq⟩ :=
    (getChosenRoute_preference_override
        [{ name := "A", travelTime := some 300, status := none, error := none },
          { name := "B", travelTime := some 100, status := none, error := none }]
        [KnownPlace.mk ["D"] ["B"]] "D").1
      (KnownPlace.mk ["D"] ["B"]) (by decide)
      { name := "B", travelTime := some 100, status := none, error := none }
      (by decide) (by decide)
  have hmem : c' ∈
      [({ name := "A", travelTime := some 300, status := none, error := none } : Route),
        { name := "B", travelTime := some 100, status := none, error := none }] := by
    rw [hsplit]
    simp
  rcases List.mem_cons.mp hmem with rfl | hmem2
  · exact absurd hcp (by decide)
  · rcases List.mem_cons.mp hmem2 with rfl | hmem3
    · exact heq
    · exact absurd hmem3 (List.not_mem_nil _)

/-- C2: the planner calls getChosenRoute without the destination argument,
so the known-place lookup can never match and the chooser degenerates to
the first (longest) candidate; consequently every planning cycle that
reaches the chooser picks the first element of possibleRoutes, whatever
the known-places configuration says. -/
theorem plan_always_picks_first_route :
    (∀ (routes : List Route) (kps : List KnownPlace),
      getChosenRoute routes kps none = routes.head?) ∧
    (∀ (bp : Bool) (events : List Event) (now eod : Int) (resp : MapsResponse)
        (cfg : Config) (tr : PlanTrace) (c : Route),
      getTravelTime bp events now eod resp cfg = .ok tr →
      tr.chosenRoute = some c →
      (getPossibleRoutes resp).head? = some c) := by
  have hA : ∀ (routes : List Route) (kps : List KnownPlace),
      getChosenRoute routes kps none = routes.head? := by
    intro routes kps
    have hnone : kps.find? (fun p => includesOpt p.location_names none) = none :=
      List.find?_eq_none.mpr fun p _ => by
        simp only [includesOpt]
        exact Bool.false_ne_true
    simp only [getChosenRoute, hnone]
  refine ⟨hA, ?_⟩
  intro bp events now eod resp cfg tr c h hc
  simp only [getTravelTime] at h
  split at h
  · cases h
    simp [noEventTrace] at hc
  · split at h
    · exact absurd h (by simp)
    · split at h
      · cases h
        simp [mapsErrorTrace] at hc
      · split at h
        · exact absurd h (by simp)
        · rename_i chosen hch
          cases h
          simp only [PlanTrace.chosenRoute] at hc
          rw [hA] at hch
          rw [hch]
          exact hc

/-- Witness for C2 at concrete inputs: the configuration prefers route
"B" for the (normalized) destination of the event, yet the cycle chooses
route "A", the first and longest candidate. -/
theorem plan_always_picks_first_route_witness :
    getChosenRoute
      [{ name := "A", travelTime := some 300, status := none, error := none },
        { name := "B", travelTime := some 100, status := none, error := none }]
      [KnownPlace.mk ["Loc"] ["B"]] none =
      some { name := "A", travelTime := some 300, status := none, error := none } ∧
    (getPossibleRoutes
        { status := some ("OK"), error_message := none
          routes := [⟨"A", 300⟩, ⟨"B", 100⟩] }).head? =
      some { name := "A", travelTime := some 300, status := none, error := none } := by
  constructor
  · exact (plan_always_picks_first_route.1
      [{ name := "A", travelTime := some 300, status := none, error := none },
        { name := "B", travelTime := some 100, status := none, error := none }]
      [KnownPlace.mk ["Loc"] ["B"]]).trans (by decide)
  · exact plan_always_picks_first_route.2 true [⟨"Gym", some ("Loc"), 1000000⟩]
      0 86400000
      { status := some ("OK"), error_message := none
        routes := [⟨"A", 300⟩, ⟨"B", 100⟩] }
      ⟨[KnownPlace.mk ["Loc"] ["B"]]⟩
      { routeInfo :=
          { routeName := "A", routeTimeSeconds := some 900
            destinationName := "Gym"
            arrivalTargetTime := .valid 1000000, arrivalTime := .valid 900000 }
        calledLocation := true, calledMaps := true
        chosenRoute := some { name := "A", travelTime := some 300, status := none, error := none } }
      { name := "A", travelTime := some 300, status := none, error := none }
      rfl rfl

theorem nextEventStep_update {now : Int} {acc : NextEvent} {ev : Event}
    (h : staticElig now ev) (hlt : ev.startTime < acc.time) :
    nextEventStep now acc ev = mkNextEvent ev := by
  unfold nextEventStep
  rw [if_pos]
  exact ⟨h.1, hlt, h.2.1, h.2.2⟩

theorem nextEventStep_keep {now : Int} {acc : NextEvent} {ev : Event}
    (h : ¬(staticElig now ev ∧ ev.startTime < acc.time)) :
    nextEventStep now acc ev = acc := by
  unfold nextEventStep
  rw [if_neg]
  intro hcond
  exact h ⟨⟨hcond.1, hcond.2.2.1, hcond.2.2.2⟩, hcond.2.1⟩

/-- The loop of getNextEvent computes an argmin: either no event ever beat
the accumulator (and every statically eligible event starts no earlier
than the accumulator time), or the result is the first event attaining the
minimum start among the statically eligible events that start before the
accumulator time. -/
theorem foldl_nextEventStep_spec (now : Int) (evs : List Event) (acc : NextEvent) :
    (evs.foldl (nextEventStep now) acc = acc ∧
      ∀ ev ∈ evs, staticElig now ev → acc.time ≤ ev.startTime) ∨
    (∃ ev ∈ evs, staticElig now ev ∧ ev.startTime < acc.time ∧
      evs.foldl (nextEventStep now) acc = mkNextEvent ev ∧
      ∀ ev' ∈ evs, staticElig now ev' → ev.startTime ≤ ev'.startTime) := by
  induction evs generalizing acc with
  | nil => exact Or.inl ⟨rfl, by simp⟩
  | cons e evs ih =>
    rw [List.foldl_cons]
    by_cases hc : staticElig now e ∧ e.startTime < acc.time
    · rw [nextEventStep_update hc.1 hc.2]
      rcases ih (mkNextEvent e) with ⟨heq, hmin⟩ | ⟨ev, hmem, hstat, hlt, heq, hmin⟩
      · refine Or.inr ⟨e, List.mem_cons_self e evs, hc.1, hc.2, heq, ?_⟩
        intro ev' hev' hst
        rcases List.mem_cons.mp hev' with rfl | hev'
        · exact le_refl _
        · exact hmin ev' hev' hst
      · have hlt' : ev.startTime < e.startTime := hlt
        refine Or.inr ⟨ev, List.mem_cons_of_mem e hmem, hstat,
          lt_trans hlt' hc.2, heq, ?_⟩
        intro ev' hev' hst
        rcases List.mem_cons.mp hev' with rfl | hev'
        · exact le_of_lt hlt'
        · exact hmin ev' hev' hst
    · rw [nextEventStep_keep hc]
      rcases ih acc with ⟨heq, hmin⟩ | ⟨ev, hmem, hstat, hlt, heq, hmin⟩
      · refine Or.inl ⟨heq, ?_⟩
        intro ev' hev' hst
        rcases List.mem_cons.mp hev' with rfl | hev'
        · by_contra hlt2
          push_neg at hlt2
          exact hc ⟨hst, hlt2⟩
        · exact hmin ev' hev' hst
      · refine Or.inr ⟨ev, List.mem_cons_of_mem e hmem, hstat, hlt, heq, ?_⟩
        intro ev' hev' hst
        rcases List.mem_cons.mp hev' with rfl | hev'
        · have hnl : ¬ ev'.startTime < acc.time := fun hl => hc ⟨hst, hl⟩
          exact le_of_lt (lt_of_lt_of_le hlt (not_lt.mp hnl))
        · exact hmin ev' hev' hst

/-- C3 (amended): getNextEvent returns the event with minimum startTime
among the events that start strictly after now, at most 120 minutes
later, before the end-of-day bound of the run, and carry a non-empty
location; when no event qualifies it returns the sentinel with title
"none". -/
theorem getNextEvent_selects_earliest (events : List Event) (now endOfTheDay : Int) :
    ((∀ ev ∈ events, ¬ eligibleEvent now endOfTheDay ev) →
      getNextEvent events now endOfTheDay = sentinelNextEvent endOfTheDay) ∧
    (∀ ev ∈ events, eligibleEvent now endOfTheDay ev →
      ∃ ev' ∈ events, eligibleEvent now endOfTheDay ev' ∧
        getNextEvent events now endOfTheDay = mkNextEvent ev' ∧
        ∀ ev'' ∈ events, eligibleEvent now endOfTheDay ev'' →
          ev'.startTime ≤ ev''.startTime) := by
  constructor
  · intro hall
    rcases foldl_nextEventStep_spec now events (sentinelNextEvent endOfTheDay) with
      ⟨heq, _⟩ | ⟨ev, hmem, hstat, hlt, _, _⟩
    · exact heq
    · exact absurd ⟨hstat, hlt⟩ (hall ev hmem)
  · intro ev hmem helig
    rcases foldl_nextEventStep_spec now events (sentinelNextEvent endOfTheDay) with
      ⟨_, hmin⟩ | ⟨ev', hmem', hstat', hlt', heq', hmin'⟩
    · exact absurd (hmin ev hmem helig.1) (not_le.mpr helig.2)
    · refine ⟨ev', hmem', ⟨hstat', hlt'⟩, heq', ?_⟩
      intro ev'' hmem'' helig''
      exact hmin' ev'' hmem'' helig''.1

/-- Witness for the amended C3 at concrete inputs: of two qualifying
events the one with the earlier start (second in list order) is
selected. -/
theorem getNextEvent_selects_earliest_witness :
    getNextEvent [⟨"A", some ("x"), 600000⟩, ⟨"B", some ("y"), 300000⟩]
      0 86400000 = mkNextEvent ⟨"B", some ("y"), 300000⟩ := by
  obtain ⟨ev', hmem, helig, heq, hmin⟩ :=
    (getNextEvent_selects_earliest
        [⟨"A", some ("x"), 600000⟩, ⟨"B", some ("y"), 300000⟩] 0 86400000).2
      ⟨"A", some ("x"), 600000⟩ (by decide) (by decide)
  have hB := hmin ⟨"B", some ("y"), 300000⟩ (by decide) (by decide)
  rcases List.mem_cons.mp hmem with rfl | hmem2
  · exact absurd hB (by decide)
  · rcases List.mem_cons.mp hmem2 with rfl | hmem3
    · exact heq
    · exact absurd hmem3 (List.not_mem_nil _)

/-- C3 counterexample: at 23:00 (epoch ms 82800000, with the upcoming
midnight at 86400000) an event 90 minutes ahead lies inside the claimed
window (now, now + 120 min], has a non-empty location, and still is not
selected — the source also bounds the search by the end of the current
day, so getNextEvent returns the sentinel instead of the event. -/
theorem getNextEvent_window_counterexample :
    (82800000 : Int) < 86400000 ∧ (86400000 : Int) ≤ 82800000 + 86400000 ∧
    (82800000 : Int) < 88200000 ∧ (88200000 : Int) - 82800000 ≤ 7200000 ∧
    locationOk (some ("Place")) = true ∧
    getNextEvent [⟨"Late", some ("Place"), 88200000⟩] 82800000 86400000 =
      sentinelNextEvent 86400000 ∧
    sentinelNextEvent 86400000 ≠ mkNextEvent ⟨"Late", some ("Place"), 88200000⟩ := by
  decide

/-- C4: on the success path the returned routeTimeSeconds equals the
travel time t of the chosen route plus max(ceil of t/5, 600) when
bePessimistic is set, and t itself otherwise. -/
theorem plan_pessimism_buffer (bp : Bool) (events : List Event) (now eod : Int)
    (resp : MapsResponse) (cfg : Config) (tr : PlanTrace) (c : Route) (t : Int) :
    getTravelTime bp events now eod resp cfg = .ok tr →
    tr.chosenRoute = some c → c.travelTime = some t →
    tr.routeInfo.routeTimeSeconds =
      some (if bp then t + max (ceilFifth t) 600 else t) := by
  intro h hc ht
  simp only [getTravelTime] at h
  split at h
  · cases h
    simp [noEventTrace] at hc
  · split at h
    · exact absurd h (by simp)
    · split at h
      · cases h
        simp [mapsErrorTrace] at hc
      · split at h
        · exact absurd h (by simp)
        · cases h
          simp only [PlanTrace.chosenRoute] at hc
          obtain rfl : _ = c := by injection hc
          simp only [PlanTrace.routeInfo]
          cases bp <;> simp [pessimize, ht]

/-- Witness for C4: travel times 1000 and 5000 give pessimistic route
times 1600 and 6000, and without pessimism 1000 stays 1000. -/
theorem plan_pessimism_buffer_witness :
    (getTravelTime true [⟨"Gym", some ("Loc"), 1000000⟩] 0 86400000
        ⟨some ("OK"), none, [⟨"Main St", 1000⟩]⟩ ⟨[]⟩).map
      (fun tr => tr.routeInfo.routeTimeSeconds) = .ok (some 1600) ∧
    (getTravelTime true [⟨"Gym", some ("Loc"), 1000000⟩] 0 86400000
        ⟨some ("OK"), none, [⟨"Main St", 5000⟩]⟩ ⟨[]⟩).map
      (fun tr => tr.routeInfo.routeTimeSeconds) = .ok (some 6000) ∧
    (getTravelTime false [⟨"Gym", some ("Loc"), 1000000⟩] 0 86400000
        ⟨some ("OK"), none, [⟨"Main St", 1000⟩]⟩ ⟨[]⟩).map
      (fun tr => tr.routeInfo.routeTimeSeconds) = .ok (some 1000) := by
  refine ⟨?_, ?_, ?_⟩
  · have h := plan_pessimism_buffer true [⟨"Gym", some ("Loc"), 1000000⟩] 0 86400000
      ⟨some ("OK"), none, [⟨"Main St", 1000⟩]⟩ ⟨[]⟩
      { routeInfo :=
          { routeName := "Main St", routeTimeSeconds := some 1600
            destinationName := "Gym"
            arrivalTargetTime := .valid 1000000, arrivalTime := .valid 1600000 }
        calledLocation := true, calledMaps := true
        chosenRoute := some { name := "Main St", travelTime := some 1000, status := none, error := none } }
      { name := "Main St", travelTime := some 1000, status := none, error := none }
      1000 rfl rfl rfl
    exact congrArg Except.ok (h.trans (by decide))
  · have h := plan_pessimism_buffer true [⟨"Gym", some ("Loc"), 1000000⟩] 0 86400000
      ⟨some ("OK"), none, [⟨"Main St", 5000⟩]⟩ ⟨[]⟩
      { routeInfo :=
          { routeName := "Main St", routeTimeSeconds := some 6000
            destinationName := "Gym"
            arrivalTargetTime := .valid 1000000, arrivalTime := .valid 6000000 }
        calledLocation := true, calledMaps := true
        chosenRoute := some { name := "Main St", travelTime := some 5000, status := none, error := none } }
      { name := "Main St", travelTime := some 5000, status := none, error := none }
      5000 rfl rfl rfl
    exact congrArg Except.ok (h.trans (by decide))
  · have h := plan_pessimism_buffer false [⟨"Gym", some ("Loc"), 1000000⟩] 0 86400000
      ⟨some ("OK"), none, [⟨"Main St", 1000⟩]⟩ ⟨[]⟩
      { routeInfo :=
          { routeName := "Main St", routeTimeSeconds := some 1000
            destinationName := "Gym"
            arrivalTargetTime := .valid 1000000, arrivalTime := .valid 1000000 }
        calledLocation := true, calledMaps := true
        chosenRoute := some { name := "Main St", travelTime := some 1000, status := none, error := none } }
      { name := "Main St", travelTime := some 1000, status := none, error := none }
      1000 rfl rfl rfl
    exact congrArg Except.ok (h.trans (by decide))

/-- C5: when both arrival stamps are present and the candidate
arrivalTargetTime minus twice the route time (in ms) is at least now plus
5 minutes, the widget refresh time equals that candidate; when the
candidate falls below the floor, or either stamp is absent, the refresh
time is now plus 5 minutes. -/
theorem refreshTime_policy (info : RouteInfo) (now tgt est r : Int) :
    (info.arrivalTargetTime = .valid tgt → info.arrivalTime = .valid est →
      info.routeTimeSeconds = some r →
      now + 5 * 60 * 1000 ≤ tgt - r * 2 * 1000 →
      refreshTime info now = .valid (tgt - r * 2 * 1000)) ∧
    (info.arrivalTargetTime = .valid tgt → info.arrivalTime = .valid est →
      info.routeTimeSeconds = some r →
      tgt - r * 2 * 1000 < now + 5 * 60 * 1000 →
      refreshTime info now = .valid (now + 5 * 60 * 1000)) ∧
    (info.arrivalTargetTime = .absent ∨ info.arrivalTime = .absent →
      refreshTime info now = .valid (now + 5 * 60 * 1000)) := by
  refine ⟨?_, ?_, ?_⟩
  · intro h1 h2 h3 h4
    have hc : ¬ (tgt - r * 2 * 1000 < now + 5 * 60 * 1000) := not_lt.mpr h4
    simp [refreshTime, h1, h2, h3, JSDate.truthy, JSDate.getTime, jsSub, jsMul,
      jsLtN, hc]
    omega
  · intro h1 h2 h3 h4
    simp [refreshTime, h1, h2, h3, JSDate.truthy, JSDate.getTime, jsSub, jsMul,
      jsLtN, h4]
    omega
  · intro habs
    have hfalse : (info.arrivalTime.truthy && info.arrivalTargetTime.truthy) = false := by
      rcases habs with h | h <;> simp [h, JSDate.truthy]
    simp only [refreshTime, hfalse, Bool.false_eq_true, if_false, JSDate.getTime,
      jsLtN]
    rw [if_pos]
    simp only [decide_eq_true_eq]
    omega

/-- Witness for C5, with the numbers of the spec examples: target one hour
out.  A 600 s route gives a candidate of 2400000 ms which is kept; a
2000 s route gives a candidate below the floor, and an absent pair of
stamps also falls back, both yielding now + 300000 ms. -/
theorem refreshTime_policy_witness :
    refreshTime
      { routeName := "R", routeTimeSeconds := some 600, destinationName := "D"
        arrivalTargetTime := .valid 3600000, arrivalTime := .valid 600000 } 0 =
      .valid 2400000 ∧
    refreshTime
      { routeName := "R", routeTimeSeconds := some 2000, destinationName := "D"
        arrivalTargetTime := .valid 3600000, arrivalTime := .valid 4000000 } 0 =
      .valid 300000 ∧
    refreshTime
      { routeName := "none", routeTimeSeconds := some 0
        destinationName := "No where to go..."
        arrivalTargetTime := .absent, arrivalTime := .absent } 0 =
      .valid 300000 := by
  refine ⟨?_, ?_, ?_⟩
  · exact (refreshTime_policy
      { routeName := "R", routeTimeSeconds := some 600, destinationName := "D"
        arrivalTargetTime := .valid 3600000, arrivalTime := .valid 600000 }
      0 3600000 600000 600).1 rfl rfl rfl (by decide)
  · exact (refreshTime_policy
      { routeName := "R", routeTimeSeconds := some 2000, destinationName := "D"
        arrivalTargetTime := .valid 3600000, arrivalTime := .valid 4000000 }
      0 3600000 4000000 2000).2.1 rfl rfl rfl (by decide)
  · exact (refreshTime_policy
      { routeName := "none", routeTimeSeconds := some 0
        destinationName := "No where to go..."
        arrivalTargetTime := .absent, arrivalTime := .absent }
      0 0 0 0).2.2 (Or.inl rfl)

/-- C6: when the selected event is the sentinel (title "none"), the
planner returns the no-event routeInfo — routeName "none", zero route
seconds, destination "No where to go...", both arrival stamps absent —
and consults neither the location provider nor the Directions API. -/
theorem plan_short_circuit_no_event (bp : Bool) (events : List Event)
    (now eod : Int) (resp : MapsResponse) (cfg : Config) :
    (getNextEvent events now eod).title = "none" →
    getTravelTime bp events now eod resp cfg = .ok noEventTrace ∧
    noEventTrace.routeInfo.routeName = "none" ∧
    noEventTrace.routeInfo.routeTimeSeconds = some 0 ∧
    noEventTrace.routeInfo.destinationName = "No where to go..." ∧
    noEventTrace.routeInfo.arrivalTargetTime = .absent ∧
    noEventTrace.routeInfo.arrivalTime = .absent ∧
    noEventTrace.calledLocation = false ∧
    noEventTrace.calledMaps = false := by
  intro hT
  refine ⟨?_, rfl, rfl, rfl, rfl, rfl, rfl, rfl⟩
  simp [getTravelTime, hT]

/-- Witness for C6: an event more than two hours out leaves the sentinel
in place, and the cycle short-circuits. -/
theorem plan_short_circuit_no_event_witness :
    getTravelTime true [⟨"Gym", some ("Loc"), 10000000⟩] 0 86400000
      ⟨some ("OK"), none, [⟨"Main St", 1000⟩]⟩ ⟨[]⟩ = .ok noEventTrace ∧
    noEventTrace.routeInfo.routeName = "none" ∧
    noEventTrace.routeInfo.routeTimeSeconds = some 0 ∧
    noEventTrace.routeInfo.destinationName = "No where to go..." ∧
    noEventTrace.routeInfo.arrivalTargetTime = .absent ∧
    noEventTrace.routeInfo.arrivalTime = .absent ∧
    noEventTrace.calledLocation = false ∧
    noEventTrace.calledMaps = false :=
  plan_short_circuit_no_event true [⟨"Gym", some ("Loc"), 10000000⟩] 0 86400000
    ⟨some ("OK"), none, [⟨"Main St", 1000⟩]⟩ ⟨[]⟩ rfl

/-- C7 counterexample: a non-success status with no error_message slips
past the truthiness test on the error field of the first element, so the
planner does not surface the Maps-error result: it carries on with the
error element as chosen route and returns the event title as destination
with a NaN route time. -/
theorem plan_provider_error_counterexample :
    (some ("ZERO_RESULTS") : Option String) ≠ some ("OK") ∧
    (getTravelTime true [⟨"Gym", some ("Loc"), 1000000⟩] 0 86400000
        ⟨some ("ZERO_RESULTS"), none, []⟩ ⟨[]⟩).map
      (fun tr => tr.routeInfo.destinationName) = .ok ("Gym") ∧
    "Gym" ≠ "Maps API error" ∧
    (getTravelTime true [⟨"Gym", some ("Loc"), 1000000⟩] 0 86400000
        ⟨some ("ZERO_RESULTS"), none, []⟩ ⟨[]⟩).map
      (fun tr => tr.routeInfo.routeTimeSeconds) = .ok none := by
  exact ⟨by decide, rfl, by decide, rfl⟩

/-- C7 (amended): when the Directions provider reports a non-success
status together with a non-empty error message — which is what the
truthiness test of the source on the error field requires — and an event
was selected, the planner returns normally with the Maps-error routeInfo
(destination "Maps API error", zero route seconds, both arrival stamps
absent), and the widget makes no reminder upsert call for that
routeInfo. -/
theorem plan_surfaces_provider_error (bp : Bool) (events : List Event)
    (now eod : Int) (resp : MapsResponse) (cfg : Config) (m : String) :
    resp.status ≠ some ("OK") → resp.error_message = some m → m ≠ "" →
    (getNextEvent events now eod).title ≠ "none" →
    getTravelTime bp events now eod resp cfg = .ok mapsErrorTrace ∧
    mapsErrorTrace.routeInfo.destinationName = "Maps API error" ∧
    mapsErrorTrace.routeInfo.routeTimeSeconds = some 0 ∧
    mapsErrorTrace.routeInfo.arrivalTargetTime = .absent ∧
    mapsErrorTrace.routeInfo.arrivalTime = .absent ∧
    ∀ now2 : Int, reminderCalls mapsErrorTrace.routeInfo now2 = [] := by
  intro hst hem hm hT
  have hroutes : getPossibleRoutes resp =
      [{ name := "Maps API error", travelTime := none
         status := resp.status, error := resp.error_message }] := by
    simp [getPossibleRoutes, hst]
  refine ⟨?_, rfl, rfl, rfl, rfl, ?_⟩
  · simp only [getTravelTime]
    rw [if_neg hT, hroutes]
    simp [strTruthy, hem, hm]
  · intro now2
    simp [reminderCalls, mapsErrorTrace, mapsErrorInfo, JSDate.truthy]

/-- Witness for the amended C7: a denied request with a message yields
the Maps-error result and no reminder calls. -/
theorem plan_surfaces_provider_error_witness :
    getTravelTime true [⟨"Gym", some ("Loc"), 1000000⟩] 0 86400000
      ⟨some ("REQUEST_DENIED"), some ("The provided API key is invalid."), []⟩
      ⟨[]⟩ = .ok mapsErrorTrace ∧
    mapsErrorTrace.routeInfo.destinationName = "Maps API error" ∧
    mapsErrorTrace.routeInfo.routeTimeSeconds = some 0 ∧
    reminderCalls mapsErrorTrace.routeInfo 0 = [] := by
  have h := plan_surfaces_provider_error true [⟨"Gym", some ("Loc"), 1000000⟩]
    0 86400000
    ⟨some ("REQUEST_DENIED"), some ("The provided API key is invalid."), []⟩
    ⟨[]⟩ "The provided API key is invalid."
    (by decide) rfl (by decide) (by decide)
  exact ⟨h.1, h.2.1, h.2.2.1, h.2.2.2.2.2 0⟩

/-- C8 counterexample: on a non-success status the single returned element
is named "Maps API error", not "error" as the claim states. -/
theorem getPossibleRoutes_error_name_counterexample :
    (some ("REQUEST_DENIED") : Option String) ≠ some ("OK") ∧
    getPossibleRoutes ⟨some ("REQUEST_DENIED"), some ("Bad key"), []⟩ =
      [{ name := "Maps API error", travelTime := none
         status := some ("REQUEST_DENIED"), error := some ("Bad key") }] ∧
    ({ name := "Maps API error", travelTime := none
       status := some ("REQUEST_DENIED"),
       error := some ("Bad key") } : Route).name ≠ "error" := by
  exact ⟨by decide, by decide, by decide⟩

/-- C8 (amended): for every response whose status is not "OK" — including
a response with the status field missing — getPossibleRoutes returns a
list of exactly one element, the error variant named "Maps API error"
carrying the status and error message of the provider in its status/error
fields. -/
theorem getPossibleRoutes_error_variant (resp : MapsResponse) :
    resp.status ≠ some ("OK") →
    getPossibleRoutes resp =
      [{ name := "Maps API error", travelTime := none
         status := resp.status, error := resp.error_message }] := by
  intro h
  simp [getPossibleRoutes, h]

/-- Witness for the amended C8: a response with the status field missing
is treated as an error. -/
theorem getPossibleRoutes_error_variant_witness :
    getPossibleRoutes ⟨none, none, [⟨"A", 5⟩]⟩ =
      [{ name := "Maps API error", travelTime := none
         status := none, error := none }] :=
  getPossibleRoutes_error_variant ⟨none, none, [⟨"A", 5⟩]⟩ (by decide)

theorem mem_updateFirst_of_find? {α : Type _} {p : α → Bool} {f : α → α}
    {l : List α} {x : α} (h : l.find? p = some x) :
    f x ∈ updateFirst p f l := by
  induction l with
  | nil => simp [List.find?] at h
  | cons y ys ih =>
    by_cases hy : p y
    · rw [List.find?_cons_of_pos _ hy] at h
      obtain rfl : y = x := by injection h
      simp [updateFirst, hy]
    · rw [List.find?_cons_of_neg _ hy] at h
      rw [updateFirst, if_neg (by simp [hy])]
      exact List.mem_cons_of_mem y (ih h)

/-- C9: addUpdateNotification writes the notification store iff the
trigger is strictly more than 30 seconds after now; when it skips, the
pending list is returned untouched; and whenever it writes, the store
afterwards holds a reminder with the given title, message and trigger. -/
theorem addUpdateNotification_gate (title message : String) (t now : Int)
    (pending : List PendingNotification) :
    ((addUpdateNotification title message (some t) now pending).2 = true ↔
      now + 30 * 1000 < t) ∧
    ((addUpdateNotification title message (some t) now pending).2 = false →
      (addUpdateNotification title message (some t) now pending).1 = pending) ∧
    ((addUpdateNotification title message (some t) now pending).2 = true →
      ∃ n ∈ (addUpdateNotification title message (some t) now pending).1,
        n.title = title ∧ n.body = message ∧ n.triggerTime = some t) := by
  by_cases hgt : now + 30 * 1000 < t
  · have hg : jsGtN (some t) (some (now + 30 * 1000)) = true := by
      simp [jsGtN]
      exact hgt
    cases hf : pending.find? (fun notif => notif.title = title) with
    | some x =>
      have hres : addUpdateNotification title message (some t) now pending =
          (updateFirst (fun notif => notif.title = title)
            (fun notif => { notif with body := message, triggerTime := some t })
            pending, true) := by
        simp only [addUpdateNotification, hg, if_true, hf]
      have hx : x.title = title := by simpa using List.find?_some hf
      refine ⟨?_, ?_, ?_⟩
      · rw [hres]
        simp
        omega
      · rw [hres]
        intro hfalse
        simp at hfalse
      · intro _
        rw [hres]
        refine ⟨{ x with body := message, triggerTime := some t }, ?_, ?_, rfl, rfl⟩
        · exact mem_updateFirst_of_find? hf
        · exact hx
    | none =>
      have hres : addUpdateNotification title message (some t) now pending =
          (pending ++ [{ title := title, body := message, triggerTime := some t }],
            true) := by
        simp only [addUpdateNotification, hg, if_true, hf]
      refine ⟨?_, ?_, ?_⟩
      · rw [hres]
        simp
        omega
      · rw [hres]
        intro hfalse
        simp at hfalse
      · intro _
        rw [hres]
        exact ⟨{ title := title, body := message, triggerTime := some t },
          List.mem_append_right _ (List.mem_cons_self _ _), rfl, rfl, rfl⟩
  · have hg : jsGtN (some t) (some (now + 30 * 1000)) = false := by
      simp [jsGtN]
      omega
    have hres : addUpdateNotification title message (some t) now pending =
        (pending, false) := by
      simp only [addUpdateNotification, hg, Bool.false_eq_true, if_false]
    refine ⟨?_, ?_, ?_⟩
    · rw [hres]
      simp
      omega
    · intro _
      rw [hres]
    · rw [hres]
      intro htrue
      simp at htrue

/-- Witness for C9: with now = 0, a trigger at 31000 ms proceeds and one
at 10000 ms is skipped with the store untouched. -/
theorem addUpdateNotification_gate_witness :
    (addUpdateNotification ("Leave Now") ("m") (some 31000) 0 []).2 = true ∧
    (addUpdateNotification ("Leave Now") ("m") (some 10000) 0 []).2 = false ∧
    (addUpdateNotification ("Leave Now") ("m") (some 10000) 0 []).1 = [] := by
  have h31 := addUpdateNotification_gate "Leave Now" "m" 31000 0 []
  have h10 := addUpdateNotification_gate "Leave Now" "m" 10000 0 []
  have hfalse : (addUpdateNotification ("Leave Now") ("m") (some 10000) 0 []).2 = false :=
    Bool.eq_false_iff.mpr fun htrue => by
      have := h10.1.mp htrue
      omega
  exact ⟨h31.1.mpr (by omega), hfalse, h10.2.1 hfalse⟩

theorem routeDescLe_total (a b : Route) :
    routeDescLe a b = true ∨ routeDescLe b a = true := by
  rcases le_total (b.travelTime.getD 0) (a.travelTime.getD 0) with h | h
  · exact Or.inl (by simp [routeDescLe, h])
  · exact Or.inr (by simp [routeDescLe, h])

theorem routeDescLe_trans {a b c : Route} (h1 : routeDescLe a b = true)
    (h2 : routeDescLe b c = true) : routeDescLe a c = true := by
  simp only [routeDescLe, decide_eq_true_eq] at h1 h2 ⊢
  exact le_trans h2 h1

theorem mem_insertRoute {r x : Route} {l : List Route} :
    x ∈ insertRoute r l ↔ x = r ∨ x ∈ l := by
  induction l with
  | nil => simp [insertRoute]
  | cons y ys ih =>
    by_cases hle : routeDescLe r y = true
    · rw [insertRoute, if_pos hle]
      simp [List.mem_cons]
    · rw [insertRoute, if_neg (by simp [hle])]
      simp only [List.mem_cons, ih]
      tauto

theorem pairwise_insertRoute {r : Route} {l : List Route}
    (h : l.Pairwise (fun a b => routeDescLe a b = true)) :
    (insertRoute r l).Pairwise (fun a b => routeDescLe a b = true) := by
  induction l with
  | nil => simp [insertRoute]
  | cons x xs ih =>
    rw [List.pairwise_cons] at h
    obtain ⟨hx, hxs⟩ := h
    by_cases hle : routeDescLe r x = true
    · rw [insertRoute, if_pos hle, List.pairwise_cons]
      refine ⟨?_, List.pairwise_cons.mpr ⟨hx, hxs⟩⟩
      intro y hy
      rcases List.mem_cons.mp hy with rfl | hy
      · exact hle
      · exact routeDescLe_trans hle (hx y hy)
    · rw [insertRoute, if_neg (by simp [hle]), List.pairwise_cons]
      refine ⟨?_, ih hxs⟩
      intro y hy
      rcases mem_insertRoute.mp hy with rfl | hy
      · rcases routeDescLe_total y x with h | h
        · exact absurd h hle
        · exact h
      · exact hx y hy

theorem mem_sortRoutesDesc {x : Route} {l : List Route} :
    x ∈ sortRoutesDesc l ↔ x ∈ l := by
  induction l with
  | nil => simp [sortRoutesDesc]
  | cons y ys ih =>
    rw [sortRoutesDesc]
    simp only [mem_insertRoute, ih, List.mem_cons]

theorem pairwise_sortRoutesDesc (l : List Route) :
    (sortRoutesDesc l).Pairwise (fun a b => routeDescLe a b = true) := by
  induction l with
  | nil => simp [sortRoutesDesc]
  | cons y ys ih =>
    rw [sortRoutesDesc]
    exact pairwise_insertRoute ih

/-- C10: on a successful provider response the candidate list is sorted
in descending order of travel time — every element dominates every later
one — every element carries a travel time, and the first element (when
present) has the maximum travel time. -/
theorem getPossibleRoutes_sorted_desc (resp : MapsResponse) :
    resp.status = some ("OK") →
    (getPossibleRoutes resp).Pairwise
      (fun r1 r2 => r2.travelTime.getD 0 ≤ r1.travelTime.getD 0) ∧
    (∀ r ∈ getPossibleRoutes resp, r.travelTime.isSome = true) ∧
    (∀ r0, (getPossibleRoutes resp).head? = some r0 →
      ∀ r ∈ getPossibleRoutes resp, r.travelTime.getD 0 ≤ r0.travelTime.getD 0) := by
  intro h
  have hroutes : getPossibleRoutes resp = sortRoutesDesc (resp.routes.map toRoute) := by
    simp [getPossibleRoutes, h]
  have hpair : (getPossibleRoutes resp).Pairwise
      (fun r1 r2 => r2.travelTime.getD 0 ≤ r1.travelTime.getD 0) := by
    rw [hroutes]
    refine List.Pairwise.imp ?_ (pairwise_sortRoutesDesc _)
    intro a b hab
    simpa [routeDescLe] using hab
  refine ⟨hpair, ?_, ?_⟩
  · intro r hr
    rw [hroutes] at hr
    obtain ⟨raw, _, rfl⟩ := List.mem_map.mp (mem_sortRoutesDesc.mp hr)
    rfl
  · intro r0 h0 r hr
    cases hres : getPossibleRoutes resp with
    | nil =>
      rw [hres] at h0
      cases h0
    | cons a tail =>
      rw [hres] at h0 hr hpair
      obtain rfl : a = r0 := by injection h0
      rcases List.mem_cons.mp hr with rfl | hr
      · exact le_refl _
      · exact (List.pairwise_cons.mp hpair).1 r hr

/-- Witness for C10: three routes with durations 100, 300, 200 come back
ordered 300, 200, 100, with the pairwise descending property obtained
from the theorem. -/
theorem getPossibleRoutes_sorted_desc_witness :
    (getPossibleRoutes
        ⟨some ("OK"), none, [⟨"A", 100⟩, ⟨"B", 300⟩, ⟨"C", 200⟩]⟩).Pairwise
      (fun r1 r2 => r2.travelTime.getD 0 ≤ r1.travelTime.getD 0) ∧
    getPossibleRoutes ⟨some ("OK"), none, [⟨"A", 100⟩, ⟨"B", 300⟩, ⟨"C", 200⟩]⟩ =
      [{ name := "B", travelTime := some 300, status := none, error := none },
        { name := "C", travelTime := some 200, status := none, error := none },
        { name := "A", travelTime := some 100, status := none, error := none }] :=
  ⟨(getPossibleRoutes_sorted_desc
      ⟨some ("OK"), none, [⟨"A", 100⟩, ⟨"B", 300⟩, ⟨"C", 200⟩]⟩ rfl).1,
    by decide⟩

end TravelWidget
